import Mathlib

/-!
Shallow embedding of the tenisX product-catalog backend
(src/main.py, src/models.py): Pydantic request validation, the
product CRUD route handlers over a relational store, and the
image-upload handler. Definitions follow the source; theorems settle
the specification's claims about them.
-/

deriving instance DecidableEq for Except

namespace TenisX

/-- JSON scalar values as they arrive in a request body. `jnum` covers
JSON numbers (int or float; Pydantic accepts both for a `float` field),
`jstr` JSON strings, `jnull` JSON null. Pydantic v2 lax coercions that
no claim exercises (e.g. numeric strings for `float` fields) are not
modelled. -/
inductive JVal where
  | jstr (s : String)
  | jnum (q : Rat)
  | jnull
deriving DecidableEq

/-- Raw request body for product create/update: each Product field of
the Pydantic schema `ProductBase` (src/main.py lines 90-99) is either
absent (`none`) or bound to a JSON value. -/
structure RawProduct where
  name : Option JVal
  brand : Option JVal
  gender : Option JVal
  category : Option JVal
  price : Option JVal
  sizes : Option JVal
  status : Option JVal
  image_url : Option JVal
  description : Option JVal
deriving DecidableEq

/-- A validated Pydantic model instance: `ProductBase` of src/main.py
lines 90-99 (`ProductCreate` and `ProductUpdate` add nothing to it).
`price : float` is modelled as `Rat`; no claim performs arithmetic on
it. -/
structure ProductBase where
  name : String
  brand : String
  gender : Option String
  category : Option String
  price : Rat
  sizes : String
  status : String
  image_url : Option String
  description : Option String
deriving DecidableEq

/-- Validation of a required `str` field (`name: str` etc.): the field
must be present and be a string; Pydantic v2 rejects numbers and null
for a plain `str` annotation. -/
def reqStr : Option JVal → Option String
  | some (JVal.jstr s) => some s
  | _ => none

/-- Validation of a required `float` field (`price: float`): the field
must be present and numeric. -/
def reqNum : Option JVal → Option Rat
  | some (JVal.jnum q) => some q
  | _ => none

/-- Validation of an `Optional[str] = None` field: absent or null
yields `None`, a string is kept, a number is rejected. -/
def optStr : Option JVal → Option (Option String)
  | none => some none
  | some JVal.jnull => some none
  | some (JVal.jstr s) => some (some s)
  | some (JVal.jnum _) => none

/-- Validation of a `str` field with a default (`status: str = "ativo"`,
src/main.py line 97): absent yields the default, a string is kept,
null and numbers are rejected (the annotation is `str`, not
`Optional[str]`). -/
def defStr (d : String) : Option JVal → Option String
  | none => some d
  | some (JVal.jstr s) => some s
  | _ => none

/-- FastAPI's request-validation boundary for a `ProductCreate` or
`ProductUpdate` body: every field of `ProductBase` (src/main.py lines
90-99) is validated; any failure aborts the whole request with a 422
before the route handler runs. Note the schema declares no string
length limits: `name: str` carries no `max_length`, so lengths are not
checked here. -/
def validateProduct (r : RawProduct) : Option ProductBase :=
  (reqStr r.name).bind fun name =>
  (reqStr r.brand).bind fun brand =>
  (optStr r.gender).bind fun gender =>
  (optStr r.category).bind fun category =>
  (reqNum r.price).bind fun price =>
  (reqStr r.sizes).bind fun sizes =>
  (defStr "ativo" r.status).bind fun status =>
  (optStr r.image_url).bind fun image_url =>
  (optStr r.description).bind fun description =>
  some ⟨name, brand, gender, category, price, sizes, status,
        image_url, description⟩

/-- A persisted row of the `products` table (src/models.py): the
validated fields plus the integer primary key assigned by storage.
Mirrors `ProductOut` (src/main.py lines 110-113). -/
structure ProductRow where
  id : Nat
  base : ProductBase
deriving DecidableEq

/-- The relational store: the `products` table together with the next
value of the autoincrementing primary key. -/
structure DB where
  nextId : Nat
  rows : List ProductRow
deriving DecidableEq

/-- Well-formedness the storage engine guarantees: primary keys are
unique, and every assigned key is below the autoincrement counter. -/
def DB.wf (db : DB) : Prop :=
  (db.rows.map ProductRow.id).Nodup ∧ ∀ r ∈ db.rows, r.id < db.nextId

instance (db : DB) : Decidable db.wf := by
  unfold DB.wf; infer_instance

/-- An HTTP error response: `raise HTTPException(status_code, detail)`. -/
structure HTTPError where
  status : Nat
  detail : String
deriving DecidableEq

/-- The 404 raised by get/update/delete (src/main.py lines 129, 146,
160). -/
def notFoundErr : HTTPError := ⟨404, "Produto não encontrado"⟩

/-- The 422 FastAPI produces when body validation fails; its structured
body is abstracted to a fixed detail string. -/
def validationErr : HTTPError := ⟨422, "Unprocessable Entity"⟩

/-- The 400 raised by the upload handler on a bad extension
(src/main.py lines 174-178). -/
def unsupportedErr : HTTPError :=
  ⟨400, "Formato de imagem não suportado. Use JPG, JPEG, PNG ou WEBP."⟩

/-- `db.query(Product).filter(Product.id == product_id).first()`: the
first row of the table whose primary key matches. -/
def firstById (pid : Nat) : List ProductRow → Option ProductRow
  | [] => none
  | q :: qs => if q.id = pid then some q else firstById pid qs

/-- Replace the first row matching the key: the ORM mutation of the
fetched row in `update_product` (src/main.py lines 148-151); the
primary key makes at most one row match. -/
def replaceFirst (pid : Nat) (row : ProductRow) : List ProductRow → List ProductRow
  | [] => []
  | q :: qs => if q.id = pid then row :: qs else q :: replaceFirst pid row qs

/-- Remove the first row matching the key: `db.delete(product)` on the
fetched row (src/main.py line 161). -/
def eraseFirst (pid : Nat) : List ProductRow → List ProductRow
  | [] => []
  | q :: qs => if q.id = pid then qs else q :: eraseFirst pid qs

/-- GET /products/(id) (src/main.py lines 125-130): return the
matching row with 200, or 404 if absent. -/
def get_product (pid : Nat) (db : DB) : Except HTTPError (Nat × ProductRow) :=
  match firstById pid db.rows with
  | none => Except.error notFoundErr
  | some q => Except.ok (200, q)

/-- The body of POST /products (src/main.py lines 133-139) after
validation: build a `Product` from the validated fields, persist it
(storage assigns the next primary key), and return the stored record
with status 201. -/
def create_product (p : ProductBase) (db : DB) : (Nat × ProductRow) × DB :=
  ((201, ⟨db.nextId, p⟩), ⟨db.nextId + 1, db.rows ++ [⟨db.nextId, p⟩]⟩)

/-- POST /products including the request-validation boundary: 422 and
no state change on invalid bodies. -/
def create_endpoint (r : RawProduct) (db : DB) :
    Except HTTPError (Nat × ProductRow) × DB :=
  match validateProduct r with
  | none => (Except.error validationErr, db)
  | some p => let pr := create_product p db
              (Except.ok pr.1, pr.2)

/-- The body of PUT /products/(id) (src/main.py lines 142-153)
after validation: 404 if the key is absent; otherwise every field of
the fetched row is overwritten from `product_in.dict()` (the full
validated field set — a replace, not a merge) and committed. -/
def update_product (pid : Nat) (p : ProductBase) (db : DB) :
    Except HTTPError (Nat × ProductRow) × DB :=
  match firstById pid db.rows with
  | none => (Except.error notFoundErr, db)
  | some _ => (Except.ok (200, ⟨pid, p⟩),
               ⟨db.nextId, replaceFirst pid ⟨pid, p⟩ db.rows⟩)

/-- PUT /products/(id) including the request-validation
boundary (FastAPI validates the body before the handler runs). -/
def update_endpoint (pid : Nat) (r : RawProduct) (db : DB) :
    Except HTTPError (Nat × ProductRow) × DB :=
  match validateProduct r with
  | none => (Except.error validationErr, db)
  | some p => update_product pid p db

/-- DELETE /products/(id) (src/main.py lines 156-163): 404 if
the key is absent; otherwise the row is deleted and committed, and the
handler returns the dict `detail: "Produto deletado"` under the
declared status 204. The success payload records the declared status
and the JSON body the handler returns (`some` = a non-empty body). -/
def delete_product (pid : Nat) (db : DB) :
    Except HTTPError (Nat × Option String) × DB :=
  match firstById pid db.rows with
  | none => (Except.error notFoundErr, db)
  | some _ => (Except.ok (204, some "Produto deletado"),
               ⟨db.nextId, eraseFirst pid db.rows⟩)

/-- ASCII lowercase of a string: `str.lower()` as applied to filename
extensions (src/main.py line 172). -/
def lowerStr (s : String) : String := String.mk (s.data.map Char.toLower)

/-- The characters of a path after its last separator. -/
def pyBasename (s : List Char) : List Char :=
  s.foldl (fun acc c => if c = '/' then [] else acc ++ [c]) []

/-- Index of the last dot of a character list, if any. -/
def lastDotIdx? (b : List Char) : Option Nat :=
  ((List.range b.length).filter fun i => b.get? i = some '.').getLast?

/-- Extension of a basename per Python's `os.path.splitext`: the
suffix from the last dot, unless every character before that dot is
itself a dot (so ".bashrc" has no extension). -/
def extOf (b : List Char) : List Char :=
  match lastDotIdx? b with
  | none => []
  | some d => if (b.take d).any (fun c => c ≠ '.') then b.drop d else []

/-- `os.path.splitext(original_name)[1]` (src/main.py line 172). -/
def splitextExtension (s : String) : String :=
  String.mk (extOf (pyBasename s.data))

/-- `str(request.base_url).rstrip("/")` (src/main.py line 186). -/
def rstripSlash (s : String) : String :=
  String.mk ((s.data.reverse.dropWhile fun c => c = '/').reverse)

/-- The upload allow-list (src/main.py line 174). -/
def allowedExts : List String := [".jpg", ".jpeg", ".png", ".webp"]

/-- Result of a successful upload: the generated stored filename and
the returned public URL. -/
structure UploadResult where
  storedName : String
  url : String
deriving DecidableEq

/-- POST /upload-image (src/main.py lines 169-189). `token` stands for
`uuid.uuid4().hex`, the 32 hex characters of a freshly drawn random
UUID, supplied here as a parameter since it is environment randomness;
`baseUrl` stands for `str(request.base_url)`. The extension of the
uploaded filename is lowercased, checked against the allow-list (400
otherwise), and the file is saved as token + extension; the returned
URL is the stripped base address, the fixed path "/static/uploads/",
and the generated name. -/
def upload_image (baseUrl token filename : String) :
    Except HTTPError UploadResult :=
  let ext := lowerStr (splitextExtension filename)
  if ext ∈ allowedExts then
    Except.ok ⟨token ++ ext,
               rstripSlash baseUrl ++ "/static/uploads/" ++ (token ++ ext)⟩
  else
    Except.error unsupportedErr

/-- Case-insensitive membership of a filename's extension in the
allow-list, as the claims phrase the upload contract. -/
def extAllowedCI (f : String) : Bool :=
  allowedExts.any fun a => lowerStr (splitextExtension f) == lowerStr a

/-! Helper lemmas about the store primitives. -/

lemma firstById_eq_none {pid : Nat} {l : List ProductRow}
    (h : ∀ q ∈ l, q.id ≠ pid) : firstById pid l = none := by
  induction l with
  | nil => rfl
  | cons a t ih =>
    have ha : a.id ≠ pid := h a (List.mem_cons_self a t)
    simp only [firstById, if_neg ha]
    exact ih fun q hq => h q (List.mem_cons_of_mem a hq)

lemma firstById_append {pid : Nat} {l1 l2 : List ProductRow}
    (h : ∀ q ∈ l1, q.id ≠ pid) :
    firstById pid (l1 ++ l2) = firstById pid l2 := by
  induction l1 with
  | nil => rfl
  | cons a t ih =>
    have ha : a.id ≠ pid := h a (List.mem_cons_self a t)
    simp only [List.cons_append, firstById, if_neg ha]
    exact ih fun q hq => h q (List.mem_cons_of_mem a hq)

lemma firstById_exists {pid : Nat} {l : List ProductRow}
    (h : ∃ q ∈ l, q.id = pid) : ∃ q, firstById pid l = some q := by
  induction l with
  | nil => simp at h
  | cons a t ih =>
    by_cases ha : a.id = pid
    · exact ⟨a, by simp only [firstById, if_pos ha]⟩
    · obtain ⟨q, hq, hid⟩ := h
      rcases List.mem_cons.mp hq with rfl | hmem
      · exact absurd hid ha
      · obtain ⟨q2, hq2⟩ := ih ⟨q, hmem, hid⟩
        exact ⟨q2, by simp only [firstById, if_neg ha]; exact hq2⟩

lemma firstById_replaceFirst (pid : Nat) (row : ProductRow) {l : List ProductRow}
    (hid : row.id = pid) (h : ∃ q ∈ l, q.id = pid) :
    firstById pid (replaceFirst pid row l) = some row := by
  induction l with
  | nil => simp at h
  | cons a t ih =>
    by_cases ha : a.id = pid
    · simp only [replaceFirst, if_pos ha, firstById, if_pos hid]
    · obtain ⟨q, hq, hqid⟩ := h
      rcases List.mem_cons.mp hq with rfl | hmem
      · exact absurd hqid ha
      · simp only [replaceFirst, if_neg ha, firstById, if_neg ha]
        exact ih ⟨q, hmem, hqid⟩

lemma firstById_unique {pid : Nat} {l : List ProductRow} {row : ProductRow}
    (hnd : (l.map ProductRow.id).Nodup) (hmem : row ∈ l) (hid : row.id = pid) :
    firstById pid l = some row := by
  induction l with
  | nil => simp at hmem
  | cons a t ih =>
    rw [List.map_cons, List.nodup_cons] at hnd
    rcases List.mem_cons.mp hmem with rfl | hmem2
    · simp only [firstById, if_pos hid]
    · by_cases ha : a.id = pid
      · exfalso
        apply hnd.1
        rw [ha, ← hid]
        exact List.mem_map_of_mem ProductRow.id hmem2
      · simp only [firstById, if_neg ha]
        exact ih hnd.2 hmem2

lemma firstById_eraseFirst {pid : Nat} {l : List ProductRow}
    (hnd : (l.map ProductRow.id).Nodup) :
    firstById pid (eraseFirst pid l) = none := by
  induction l with
  | nil => rfl
  | cons a t ih =>
    rw [List.map_cons, List.nodup_cons] at hnd
    by_cases ha : a.id = pid
    · simp only [eraseFirst, if_pos ha]
      apply firstById_eq_none
      intro q hq hqid
      apply hnd.1
      rw [ha, ← hqid]
      exact List.mem_map_of_mem ProductRow.id hq
    · simp only [eraseFirst, if_neg ha, firstById, if_neg ha]
      exact ih hnd.2

lemma mem_eraseFirst {pid : Nat} {l : List ProductRow} {q : ProductRow}
    (hq : q ∈ l) (hne : q.id ≠ pid) : q ∈ eraseFirst pid l := by
  induction l with
  | nil => simp at hq
  | cons a t ih =>
    rcases List.mem_cons.mp hq with rfl | hmem
    · simp only [eraseFirst, if_neg hne]
      exact List.mem_cons_self q (eraseFirst pid t)
    · by_cases ha : a.id = pid
      · simp only [eraseFirst, if_pos ha]; exact hmem
      · simp only [eraseFirst, if_neg ha]
        exact List.mem_cons_of_mem a (ih hmem)

/-- Inversion of the validation boundary: a validated model's fields
each come from the corresponding raw field through its validator. -/
lemma validateProduct_fields {r : RawProduct} {p : ProductBase}
    (h : validateProduct r = some p) :
    reqStr r.name = some p.name ∧ reqStr r.brand = some p.brand ∧
    optStr r.gender = some p.gender ∧ optStr r.category = some p.category ∧
    reqNum r.price = some p.price ∧ reqStr r.sizes = some p.sizes ∧
    defStr "ativo" r.status = some p.status ∧
    optStr r.image_url = some p.image_url ∧
    optStr r.description = some p.description := by
  simp only [validateProduct, Option.bind_eq_some, Option.some.injEq] at h
  obtain ⟨name, hn, brand, hb, gender, hg, category, hc, price, hp,
          sizes, hs, status, hst, iu, hiu, de, hde, heq⟩ := h
  subst heq
  exact ⟨hn, hb, hg, hc, hp, hs, hst, hiu, hde⟩

/-- The case-insensitive allow-list test agrees with the code's
lowercase-then-compare test. -/
lemma extAllowedCI_iff (f : String) :
    extAllowedCI f = true ↔ lowerStr (splitextExtension f) ∈ allowedExts := by
  constructor
  · intro h
    simp only [extAllowedCI, List.any_eq_true, beq_iff_eq] at h
    obtain ⟨a, ha, he⟩ := h
    simp only [allowedExts, List.mem_cons, List.not_mem_nil, or_false] at ha
    rcases ha with rfl | rfl | rfl | rfl <;> (rw [he]; decide)
  · intro h
    simp only [allowedExts, List.mem_cons, List.not_mem_nil, or_false] at h
    rcases h with he | he | he | he <;> simp only [extAllowedCI, he] <;> decide

/-! Concrete fixtures for witnesses and counterexamples. -/

/-- The spec's example payload, validated: status defaulted by the
schema, price given as a plain number. -/
def sampleBase : ProductBase :=
  ⟨"Runner X", "Acme", none, none, 129, "40,41,42", "ativo", none, none⟩

/-- The spec's example create request, with `status` omitted. -/
def rawRunnerX : RawProduct :=
  ⟨some (JVal.jstr "Runner X"), some (JVal.jstr "Acme"), none, none,
   some (JVal.jnum 129), some (JVal.jstr "40,41,42"), none, none, none⟩

/-- An empty store. -/
def db0 : DB := ⟨1, []⟩

/-- A store holding one product under key 1. -/
def db1 : DB := ⟨2, [⟨1, sampleBase⟩]⟩

/-! Claims. -/

/-- C1 counterexample: the claim says a Create whose fields omit
`status` stores and returns status "active"; on the code the default
is the string "ativo" (src/main.py line 97, src/models.py line 15),
and "ativo" is not "active". -/
theorem C1_counterexample :
    rawRunnerX.status = none ∧
    (create_endpoint rawRunnerX db0).1 = Except.ok (201, ⟨1, sampleBase⟩) ∧
    get_product 1 (create_endpoint rawRunnerX db0).2 = Except.ok (200, ⟨1, sampleBase⟩) ∧
    sampleBase.status ≠ "active" :=
  ⟨rfl, by decide, by decide, by decide⟩

/-- C1 (amended): for every Create call whose fields omit `status`,
the stored record returned by Create, and by a subsequent Get on its
id, has status equal to "ativo". -/
theorem C1_default_status_ativo (r : RawProduct) (p : ProductBase) (db : DB)
    (hwf : db.wf) (hs : r.status = none) (hv : validateProduct r = some p) :
    ∃ row db2, create_endpoint r db = (Except.ok (201, row), db2) ∧
      row.base.status = "ativo" ∧ get_product row.id db2 = Except.ok (200, row) := by
  have hstat : p.status = "ativo" := by
    have hf := (validateProduct_fields hv).2.2.2.2.2.2.1
    rw [hs] at hf
    simpa [defStr] using hf.symm
  have hne : ∀ q ∈ db.rows, q.id ≠ db.nextId := fun q hq => Nat.ne_of_lt (hwf.2 q hq)
  refine ⟨⟨db.nextId, p⟩, ⟨db.nextId + 1, db.rows ++ [⟨db.nextId, p⟩]⟩, ?_, hstat, ?_⟩
  · simp [create_endpoint, hv, create_product]
  · simp [get_product, firstById_append hne, firstById]

/-- C1 witness: the amended theorem applied to the example request on
an empty store. -/
theorem C1_witness :
    (db0.wf ∧ rawRunnerX.status = none ∧ validateProduct rawRunnerX = some sampleBase) ∧
    (∃ row db2, create_endpoint rawRunnerX db0 = (Except.ok (201, row), db2) ∧
      row.base.status = "ativo" ∧ get_product row.id db2 = Except.ok (200, row)) :=
  ⟨⟨by decide, rfl, by decide⟩,
   C1_default_status_ativo rawRunnerX sampleBase db0 (by decide) rfl (by decide)⟩

/-- C3: every valid create body yields a stored record carrying the
validated fields unchanged under a freshly assigned id, and Get on
that id returns exactly that record. -/
theorem C3_create_then_get (r : RawProduct) (p : ProductBase) (db : DB)
    (hwf : db.wf) (hv : validateProduct r = some p) :
    ∃ row db2, create_endpoint r db = (Except.ok (201, row), db2) ∧
      row.base = p ∧ (∀ q ∈ db.rows, q.id ≠ row.id) ∧
      get_product row.id db2 = Except.ok (200, row) := by
  have hne : ∀ q ∈ db.rows, q.id ≠ db.nextId := fun q hq => Nat.ne_of_lt (hwf.2 q hq)
  refine ⟨⟨db.nextId, p⟩, ⟨db.nextId + 1, db.rows ++ [⟨db.nextId, p⟩]⟩, ?_, rfl, hne, ?_⟩
  · simp [create_endpoint, hv, create_product]
  · simp [get_product, firstById_append hne, firstById]

/-- C3 witness: the theorem applied to the example request on an
empty store. -/
theorem C3_witness :
    (db0.wf ∧ validateProduct rawRunnerX = some sampleBase) ∧
    (∃ row db2, create_endpoint rawRunnerX db0 = (Except.ok (201, row), db2) ∧
      row.base = sampleBase ∧ (∀ q ∈ db0.rows, q.id ≠ row.id) ∧
      get_product row.id db2 = Except.ok (200, row)) :=
  ⟨⟨by decide, by decide⟩,
   C3_create_then_get rawRunnerX sampleBase db0 (by decide) (by decide)⟩

/-- C7: Get returns the stored row whose primary key matches with
status 200, and fails with the 404 NotFound error when no row
matches. -/
theorem C7_get_found_or_404 (db : DB) (pid : Nat) (row : ProductRow)
    (hwf : db.wf) :
    (row ∈ db.rows → row.id = pid → get_product pid db = Except.ok (200, row)) ∧
    ((∀ q ∈ db.rows, q.id ≠ pid) → get_product pid db = Except.error notFoundErr) := by
  constructor
  · intro hmem hid
    simp [get_product, firstById_unique hwf.1 hmem hid]
  · intro habs
    simp [get_product, firstById_eq_none habs]

/-- C7 witness: Get on the one-row store finds key 1 and rejects
key 5. -/
theorem C7_witness :
    db1.wf ∧
    get_product 1 db1 = Except.ok (200, ⟨1, sampleBase⟩) ∧
    get_product 5 db1 = Except.error notFoundErr :=
  ⟨by decide,
   (C7_get_found_or_404 db1 1 ⟨1, sampleBase⟩ (by decide)).1 (by decide) rfl,
   (C7_get_found_or_404 db1 5 ⟨1, sampleBase⟩ (by decide)).2 (by decide)⟩

/-- C2: for an id present in the store, Update with a full validated
field set succeeds, and the subsequent Get returns exactly the new
fields under that id (nothing merged from the old record); optional
fields omitted from the request validate to null; Update on an absent
id fails with the 404 NotFound error. -/
theorem C2_update_full_overwrite (pid : Nat) (r : RawProduct) (p : ProductBase)
    (db : DB) (hv : validateProduct r = some p) :
    ((∃ q ∈ db.rows, q.id = pid) →
        update_endpoint pid r db =
          (Except.ok (200, ⟨pid, p⟩), ⟨db.nextId, replaceFirst pid ⟨pid, p⟩ db.rows⟩) ∧
        get_product pid ⟨db.nextId, replaceFirst pid ⟨pid, p⟩ db.rows⟩ =
          Except.ok (200, ⟨pid, p⟩)) ∧
    ((r.gender = none → p.gender = none) ∧ (r.category = none → p.category = none) ∧
     (r.image_url = none → p.image_url = none) ∧
     (r.description = none → p.description = none)) ∧
    ((∀ q ∈ db.rows, q.id ≠ pid) →
        update_endpoint pid r db = (Except.error notFoundErr, db)) := by
  refine ⟨fun hex => ?_, ?_, fun habs => ?_⟩
  · obtain ⟨q, hq⟩ := firstById_exists hex
    constructor
    · simp [update_endpoint, hv, update_product, hq]
    · simp [get_product, firstById_replaceFirst pid ⟨pid, p⟩ rfl hex]
  · have hf := validateProduct_fields hv
    refine ⟨fun h => ?_, fun h => ?_, fun h => ?_, fun h => ?_⟩
    · have hg := hf.2.2.1; rw [h] at hg; simpa [optStr] using hg.symm
    · have hc := hf.2.2.2.1; rw [h] at hc; simpa [optStr] using hc.symm
    · have hi := hf.2.2.2.2.2.2.2.1; rw [h] at hi; simpa [optStr] using hi.symm
    · have hd := hf.2.2.2.2.2.2.2.2; rw [h] at hd; simpa [optStr] using hd.symm
  · simp [update_endpoint, hv, update_product, firstById_eq_none habs]

/-- C2 witness: updating key 1 of the one-row store with the example
body succeeds and overwrites; updating absent key 7 fails with 404. -/
theorem C2_witness :
    validateProduct rawRunnerX = some sampleBase ∧
    update_endpoint 1 rawRunnerX db1 =
      (Except.ok (200, ⟨1, sampleBase⟩), ⟨2, [⟨1, sampleBase⟩]⟩) ∧
    update_endpoint 7 rawRunnerX db1 = (Except.error notFoundErr, db1) :=
  ⟨by decide,
   ((C2_update_full_overwrite 1 rawRunnerX sampleBase db1 (by decide)).1
      ⟨⟨1, sampleBase⟩, by decide, rfl⟩).1,
   (C2_update_full_overwrite 7 rawRunnerX sampleBase db1 (by decide)).2.2 (by decide)⟩

/-- C8: Delete on a present id succeeds and removes that record while
keeping every other record, so a subsequent Get on the id fails with
the 404 NotFound error; Delete on an absent id fails with it too. -/
theorem C8_delete_then_get (db : DB) (pid : Nat) (hwf : db.wf) :
    ((∃ q ∈ db.rows, q.id = pid) →
        delete_product pid db =
          (Except.ok (204, some "Produto deletado"), ⟨db.nextId, eraseFirst pid db.rows⟩) ∧
        get_product pid ⟨db.nextId, eraseFirst pid db.rows⟩ = Except.error notFoundErr ∧
        (∀ q ∈ db.rows, q.id ≠ pid → q ∈ eraseFirst pid db.rows)) ∧
    ((∀ q ∈ db.rows, q.id ≠ pid) →
        delete_product pid db = (Except.error notFoundErr, db)) := by
  refine ⟨fun hex => ?_, fun habs => ?_⟩
  · obtain ⟨q, hq⟩ := firstById_exists hex
    refine ⟨by simp [delete_product, hq], ?_, fun q2 hq2 hne => mem_eraseFirst hq2 hne⟩
    simp [get_product, firstById_eraseFirst hwf.1]
  · simp [delete_product, firstById_eq_none habs]

/-- C8 witness: deleting key 1 empties the one-row store and a Get on
key 1 then fails; deleting absent key 9 fails. -/
theorem C8_witness :
    db1.wf ∧
    delete_product 1 db1 = (Except.ok (204, some "Produto deletado"), ⟨2, []⟩) ∧
    get_product 1 (⟨2, eraseFirst 1 db1.rows⟩ : DB) = Except.error notFoundErr ∧
    delete_product 9 db1 = (Except.error notFoundErr, db1) :=
  ⟨by decide,
   ((C8_delete_then_get db1 1 (by decide)).1 ⟨⟨1, sampleBase⟩, by decide, rfl⟩).1,
   ((C8_delete_then_get db1 1 (by decide)).1 ⟨⟨1, sampleBase⟩, by decide, rfl⟩).2.1,
   (C8_delete_then_get db1 9 (by decide)).2 (by decide)⟩

/-- C10: Update and Delete called with an id absent from the store
fail with the 404 NotFound error and return the store unchanged. -/
theorem C10_absent_id_store_unchanged (db : DB) (pid : Nat) (r : RawProduct)
    (p : ProductBase) (habs : ∀ q ∈ db.rows, q.id ≠ pid)
    (hv : validateProduct r = some p) :
    update_endpoint pid r db = (Except.error notFoundErr, db) ∧
    delete_product pid db = (Except.error notFoundErr, db) := by
  have hf := firstById_eq_none habs
  exact ⟨by simp [update_endpoint, hv, update_product, hf],
         by simp [delete_product, hf]⟩

/-- C10 witness: key 9 is absent from the one-row store; both
operations fail with 404 and leave it as it was. -/
theorem C10_witness :
    (∀ q ∈ db1.rows, q.id ≠ 9) ∧
    update_endpoint 9 rawRunnerX db1 = (Except.error notFoundErr, db1) ∧
    delete_product 9 db1 = (Except.error notFoundErr, db1) :=
  ⟨by decide,
   (C10_absent_id_store_unchanged db1 9 rawRunnerX sampleBase (by decide) (by decide)).1,
   (C10_absent_id_store_unchanged db1 9 rawRunnerX sampleBase (by decide) (by decide)).2⟩

/-- A name one character over the 200-char limit the table schema
declares for `name` (src/models.py line 9). -/
def longName : String := String.mk (List.replicate 201 'a')

/-- A create request carrying the over-long name, all required fields
present. -/
def rawLongName : RawProduct :=
  ⟨some (JVal.jstr longName), some (JVal.jstr "Acme"), none, none,
   some (JVal.jnum 10), some (JVal.jstr "40"), none, none, none⟩

/-- The record the over-long request validates to. -/
def longBase : ProductBase :=
  ⟨longName, "Acme", none, none, 10, "40", "ativo", none, none⟩

set_option maxRecDepth 4000 in
/-- C4 counterexample: the Pydantic schema declares no string length
limits (src/main.py lines 90-99), so a create whose name has 201
characters is not rejected with 422: it is accepted with 201 and the
record is stored. -/
theorem C4_counterexample :
    longName.length = 201 ∧
    create_endpoint rawLongName db0 =
      (Except.ok (201, ⟨1, longBase⟩), ⟨2, [⟨1, longBase⟩]⟩) :=
  ⟨by decide, rfl⟩

/-- C4 (amended): a create request missing a required field, or whose
body fails the schema's type validation, is rejected with 422 at the
request-validation boundary and the store is unchanged; the declared
string length limits are not checked there. -/
theorem C4_validation_rejects (r : RawProduct) (db : DB)
    (h : r.name = none ∨ r.brand = none ∨ r.price = none ∨ r.sizes = none ∨
         validateProduct r = none) :
    create_endpoint r db = (Except.error validationErr, db) := by
  have hv : validateProduct r = none := by
    cases hvp : validateProduct r with
    | none => rfl
    | some p =>
      exfalso
      have hf := validateProduct_fields hvp
      rcases h with h | h | h | h | h
      · rw [h] at hf; simp [reqStr] at hf
      · rw [h] at hf; simp [reqStr] at hf
      · rw [h] at hf; simp [reqNum] at hf
      · rw [h] at hf; simp [reqStr] at hf
      · rw [h] at hvp; exact Option.noConfusion hvp
  simp [create_endpoint, hv]

/-- A create request with the required `name` missing. -/
def rawNoName : RawProduct :=
  ⟨none, some (JVal.jstr "Acme"), none, none, some (JVal.jnum 10),
   some (JVal.jstr "40"), none, none, none⟩

/-- C4 witness: the request missing `name` is rejected and the empty
store stays empty. -/
theorem C4_witness :
    (rawNoName.name = none ∨ rawNoName.brand = none ∨ rawNoName.price = none ∨
     rawNoName.sizes = none ∨ validateProduct rawNoName = none) ∧
    create_endpoint rawNoName db0 = (Except.error validationErr, db0) :=
  ⟨Or.inl rfl, C4_validation_rejects rawNoName db0 (Or.inl rfl)⟩

/-- C5: an upload fails with the 400 UnsupportedFormat error exactly
when the filename's extension, compared case-insensitively, is not
one of .jpg, .jpeg, .png, .webp; in particular "photo.GIF" is
rejected and "photo.PNG" is accepted. -/
theorem C5_extension_allowlist :
    (∀ b t f, upload_image b t f = Except.error unsupportedErr ↔
        ¬ extAllowedCI f = true) ∧
    upload_image "http://h/" "0123abcd" "photo.GIF" = Except.error unsupportedErr ∧
    upload_image "http://h/" "0123abcd" "photo.PNG" =
      Except.ok ⟨"0123abcd.png", "http://h/static/uploads/0123abcd.png"⟩ := by
  refine ⟨fun b t f => ?_, by decide, by decide⟩
  by_cases h : lowerStr (splitextExtension f) ∈ allowedExts
  · have hci : extAllowedCI f = true := (extAllowedCI_iff f).mpr h
    simp [upload_image, h, hci]
  · have hci : ¬ extAllowedCI f = true := fun hc => h ((extAllowedCI_iff f).mp hc)
    simp [upload_image, h, hci]

/-- The hex form of a concrete freshly drawn UUID. -/
def hexTok : String := "0123456789abcdef0123456789abcdef"

/-- C6 counterexample: the claim says the stored filename is the
random token followed by the original extension of the uploaded
filename; the code lowercases the extension first (src/main.py line
172), so for "photo.PNG" the stored name ends in ".png", not the
original ".PNG". -/
theorem C6_counterexample :
    upload_image "http://h" hexTok "photo.PNG" =
      Except.ok ⟨hexTok ++ ".png", "http://h/static/uploads/" ++ (hexTok ++ ".png")⟩ ∧
    splitextExtension "photo.PNG" = ".PNG" ∧
    hexTok ++ ".png" ≠ hexTok ++ ".PNG" :=
  ⟨by decide, by decide, by decide⟩

/-- C6 (amended): for every accepted upload, the stored filename is
the random token followed by the lowercased extension of the uploaded
filename, and the returned URL is the service's base address (trailing
slashes stripped) followed by the fixed path "/static/uploads/"
followed by that generated filename. -/
theorem C6_stored_name_and_url (b t f : String)
    (h : lowerStr (splitextExtension f) ∈ allowedExts) :
    upload_image b t f =
      Except.ok ⟨t ++ lowerStr (splitextExtension f),
        rstripSlash b ++ "/static/uploads/" ++
          (t ++ lowerStr (splitextExtension f))⟩ := by
  simp [upload_image, h]

/-- C6 witness: the amended theorem applied to a concrete base
address, token and filename. -/
theorem C6_witness :
    lowerStr (splitextExtension "photo.PNG") ∈ allowedExts ∧
    upload_image "http://h/" hexTok "photo.PNG" =
      Except.ok ⟨hexTok ++ lowerStr (splitextExtension "photo.PNG"),
        rstripSlash "http://h/" ++ "/static/uploads/" ++
          (hexTok ++ lowerStr (splitextExtension "photo.PNG"))⟩ :=
  ⟨by decide, C6_stored_name_and_url "http://h/" hexTok "photo.PNG" (by decide)⟩

/-- C9: the delete handler declares status 204 (whose body must be
empty) yet returns the non-empty JSON body with detail "Produto
deletado" (src/main.py lines 156-163); on any present id the response
carries that body. -/
theorem C9_delete_returns_body :
    delete_product 1 db1 =
      (Except.ok (204, some "Produto deletado"), ⟨2, []⟩) ∧
    (some "Produto deletado" : Option String) ≠ none :=
  ⟨by decide, by decide⟩

end TenisX
